import Mathlib

/-!
Verification of the RAG core of deepFluxUniHelp.

Shallow embedding of the retrieval-augmented answering pipeline:
`backend/app/rag/{loaders,chunking,vectorstore,ingestion,chain}.py` and the
generation/timeout handling of `backend/app/api/chat.py`.  External library
calls (ChromaDB collection operations, `asyncio.wait_for`, the LangChain text
splitter, the per-format document parsers, the LLM chain) are modelled at the
boundary where the repository invokes them, following their documented
behaviour; everything else is a direct translation of the Python source.
-/

namespace DeepFluxUniHelp

/-! ## Data model

`Document` embeds a LangChain `Document` restricted to the metadata keys the
repository reads: `page_content`, `metadata["source"]`, `metadata["filename"]`,
`metadata["page"]`.  A missing key is `none`.  `PathM` records the accessors of
`pathlib.Path` the source uses (`str(path)`, `path.name`, `path.suffix`). -/

structure Document where
  page_content : String
  source : Option String := none
  filename : Option String := none
  page : Option Nat := none
  deriving DecidableEq, Repr

structure PathM where
  full : String
  name : String
  suffix : String
  deriving DecidableEq, Repr

/-! ## `vectorstore.py`: DummyEmbeddings

`DummyEmbeddings.embed_documents` returns `[[0.0] * 384 for _ in texts]` and
`embed_query` returns `[0.0] * 384`; floats here are the exact constant `0.0`,
embedded as `(0 : ℚ)`. -/

def embed_documents (texts : List String) : List (List ℚ) :=
  texts.map (fun _ => List.replicate 384 (0 : ℚ))

def embed_query (_text : String) : List ℚ :=
  List.replicate 384 (0 : ℚ)

/-! ## ChromaDB collection state

The repository keeps one named Chroma collection (`"university_docs"`) behind
a process-cached `Chroma` handle (`get_vectorstore`).  The collection state is
the pair (does the named collection currently exist in the client,
its stored entries).  `Chroma.delete_collection()` deletes the named
collection itself from the client; the cached handle keeps pointing at the
deleted collection, and a subsequent query through that handle fails with
Chroma's invalid-collection error (the collection no longer exists) rather
than returning an empty result. -/

structure Entry where
  doc : Document
  embedding : List ℚ
  deriving DecidableEq, Repr

structure ChromaState where
  collectionExists : Bool
  entries : List Entry
  deriving DecidableEq, Repr

/-- State of the store right after `get_vectorstore()` first runs on a fresh
persist directory: `Chroma(...)` get-or-creates the named collection, empty. -/
def freshChromaState : ChromaState := ⟨true, []⟩

inductive ChromaError where
  | invalidCollection
  deriving DecidableEq, Repr

/-- Squared L2 distance, Chroma's default metric for ranking. -/
def l2sq (u v : List ℚ) : ℚ :=
  (List.zipWith (fun a b => (a - b) * (a - b)) u v).sum

/-- `vectorstore.add_documents(chunks)` through the cached handle: embeds each
chunk with the configured `DummyEmbeddings` and appends the entries; fails if
the collection was deleted out from under the handle. -/
def add_documents (st : ChromaState) (chunks : List Document) :
    Except ChromaError ChromaState :=
  if st.collectionExists then
    .ok { st with
          entries := st.entries ++
            (List.zip chunks (embed_documents (chunks.map (·.page_content)))).map
              (fun p => ⟨p.1, p.2⟩) }
  else
    .error .invalidCollection

/-- `vectorstore.similarity_search_with_score(query, k)` through the cached
handle: embeds the query, ranks all stored entries by ascending distance and
returns the first `k`; fails if the collection was deleted. -/
def similarity_search_with_score (st : ChromaState) (query : String) (k : Nat) :
    Except ChromaError (List (Document × ℚ)) :=
  if st.collectionExists then
    .ok (((st.entries.map
            (fun e => (e.doc, l2sq (embed_query query) e.embedding))).insertionSort
            (fun a b => a.2 ≤ b.2)).take k)
  else
    .error .invalidCollection

/-- `vectorstore.clear_collection(vs)`: `vs.delete_collection()` — removes the
named collection (and with it all stored data) from the Chroma client. -/
def clear_collection (st : ChromaState) : ChromaState :=
  { st with collectionExists := false, entries := [] }

/-- `ingestion.search(query, top_k)`: `top_k or 4` under Python truthiness
(`None` and `0` are falsy, so both select the default 4). -/
def kOrDefault : Option Nat → Nat
  | none => 4
  | some n => if n = 0 then 4 else n

/-- `ingestion.search(query, top_k)` against the cached vector store. -/
def search (st : ChromaState) (query : String) (top_k : Option Nat) :
    Except ChromaError (List (Document × ℚ)) :=
  similarity_search_with_score st query (kOrDefault top_k)

/-! ## `loaders.py`

`get_loader_for_path` dispatches on `path.suffix.lower()` to one of three
format parsers (PyPDF, Docx2txt, Text); the parsers themselves are external
libraries, embedded as a `parse` parameter that may fail (raise). -/

inductive LoaderKind where
  | pdfLoader
  | docxLoader
  | textLoader
  deriving DecidableEq, Repr

/-- Python's `str.lower()` (character-wise lowercasing, as in Lean's own
`String.toLower`, written over the character list so it evaluates in the
kernel). -/
def str_lower (s : String) : String :=
  ⟨s.data.map Char.toLower⟩

def get_loader_for_path (p : PathM) : Option LoaderKind :=
  let suffix := str_lower p.suffix
  if suffix = ".pdf" then some .pdfLoader
  else if suffix = ".docx" then some .docxLoader
  else if suffix = ".doc" then some .docxLoader
  else if suffix = ".txt" then some .textLoader
  else if suffix = ".md" then some .textLoader
  else none

/-- A per-format parser: `loader.load()` for the loader built on a path.
Returns the parsed documents or fails (parse error in the external library). -/
def Parser : Type := LoaderKind → PathM → Except String (List Document)

inductive LoadError where
  /-- the `ValueError("Format non supporté: ...")` raised by `load_document` -/
  | unsupportedFormat (suffix : String)
  /-- a parse failure propagating out of `loader.load()` -/
  | parseFailure (msg : String)
  deriving DecidableEq, Repr

/-- `loaders.load_document(file_path)`: dispatch by extension, parse, then
stamp `source`/`filename` metadata onto every produced document. -/
def load_document (parse : Parser) (p : PathM) : Except LoadError (List Document) :=
  match get_loader_for_path p with
  | none => .error (.unsupportedFormat p.suffix)
  | some kind =>
    match parse kind p with
    | .error e => .error (.parseFailure e)
    | .ok docs =>
      .ok (docs.map (fun d => { d with source := some p.full, filename := some p.name }))

def supportedSuffixes : List String := [".pdf", ".docx", ".doc", ".txt", ".md"]

/-- `loaders.load_documents_from_directory(dir_path)`: walk the files of the
tree (the `rglob` listing is the `files` argument), keep those with a
supported suffix, `try: load_document ... except: log and continue`. -/
def load_documents_from_directory (parse : Parser) : List PathM → List Document
  | [] => []
  | p :: rest =>
    (if str_lower p.suffix ∈ supportedSuffixes then
      match load_document parse p with
      | .ok docs => docs
      | .error _ => []
    else []) ++ load_documents_from_directory parse rest

/-! ## `ingestion.py`

`split_documents` delegates to LangChain's `RecursiveCharacterTextSplitter`,
an external library, embedded as a `splitFn` parameter (a pure function from
documents to chunks). -/

structure IngestStats where
  files : Nat
  chunks : Nat
  deriving DecidableEq, Repr

inductive IngestError where
  | load (e : LoadError)
  | store (e : ChromaError)
  deriving DecidableEq, Repr

/-- `ingestion.ingest_file(file_path)`: load, chunk, add to the cached vector
store, return the number of chunks added. -/
def ingest_file (parse : Parser) (splitFn : List Document → List Document)
    (st : ChromaState) (p : PathM) : Except IngestError (ChromaState × Nat) :=
  match load_document parse p with
  | .error e => .error (.load e)
  | .ok docs =>
    let chunks := splitFn docs
    match add_documents st chunks with
    | .error e => .error (.store e)
    | .ok st2 => .ok (st2, chunks.length)

/-- `ingestion.ingest_directory(dir_path)`: load all supported documents of
the tree (per-file failures skipped), chunk, add, and report
`{"files": len({doc.metadata.get("source", "")}), "chunks": len(chunks)}`. -/
def ingest_directory (parse : Parser) (splitFn : List Document → List Document)
    (st : ChromaState) (files : List PathM) :
    Except IngestError (ChromaState × IngestStats) :=
  let docs := load_documents_from_directory parse files
  if docs.isEmpty then .ok (st, ⟨0, 0⟩)
  else
    let chunks := splitFn docs
    match add_documents st chunks with
    | .error e => .error (.store e)
    | .ok st2 => .ok (st2, ⟨(docs.map (fun d => d.source.getD "")).dedup.length,
                            chunks.length⟩)

/-! ## `chain.py`: conversation history, context and source formatting -/

/-- `models/conversation.py` `MessageRole`: closed `{USER, ASSISTANT}`
enumeration with string values `"user"` / `"assistant"`. -/
inductive MessageRole where
  | user
  | assistant
  deriving DecidableEq, Repr

/-- The fields of a conversation `Message` read by the chain:
`msg.role.value` and `msg.content`. -/
structure Message where
  role : MessageRole
  content : String
  deriving DecidableEq, Repr

/-- The per-message line of `_format_conversation_history`:
`f"{role}: {msg.content[:200]}"` with the role label chosen by
`"Étudiant" if msg.role.value == "user" else "Assistant"`. -/
def renderMessage (m : Message) : String :=
  (if m.role = .user then "Étudiant" else "Assistant") ++ ": " ++ m.content.take 200

/-- The `history_lines` list built by the loop of
`_format_conversation_history`: a fixed header followed by one rendered line
per message of the list (the loop iterates over the whole list). -/
def history_lines (msgs : List Message) : List String :=
  "Historique récent de la conversation:" :: msgs.map renderMessage

/-- `chain._format_conversation_history(messages)`: empty (or absent) history
gives `""`; otherwise the newline-join of `history_lines` with a trailing
blank line. -/
def format_conversation_history (msgs : List Message) : String :=
  if msgs.isEmpty then ""
  else String.intercalate "\n" (history_lines msgs) ++ "\n\n"

/-- `Path(str(src)).name`: the final component of a POSIX path string. -/
def path_name (s : String) : String :=
  (s.splitOn "/").getLastD ""

/-- The filename fallback chain shared by `format_docs` and `invoke_rag`:
`filename = d.metadata.get("filename")`, and on a falsy result
`filename = Path(str(src)).name if src else "document"` (Python truthiness:
`None` and `""` are both falsy). -/
def doc_filename (d : Document) : String :=
  let fallback : Option String → String := fun src =>
    match src with
    | some s => if s = "" then "document" else path_name s
    | none => "document"
  match d.filename with
  | some f => if f = "" then fallback d.source else f
  | none => fallback d.source

/-- `chain.format_docs(docs)`: each document rendered as
`[Source: {filename}{ p.N}]\n{content}`, joined by the fixed delimiter. -/
def format_docs (docs : List Document) : String :=
  String.intercalate "\n\n---\n\n"
    (docs.map (fun d =>
      let page_label :=
        match d.page with
        | some p => " p." ++ toString (p + 1)
        | none => ""
      "[Source: " ++ doc_filename d ++ page_label ++ "]\n" ++ d.page_content))

/-- The source label of `invoke_rag`:
`f"{filename} (p.{int(page) + 1})" if page is not None else str(filename)`. -/
def source_label (d : Document) : String :=
  match d.page with
  | some p => doc_filename d ++ " (p." ++ toString (p + 1) ++ ")"
  | none => doc_filename d

/-- The source-building loop of `invoke_rag`: walk the retrieved documents in
rank order with a `seen` set of labels, skip already-seen labels, and pair
each new label with `d.page_content[:300]`. -/
def build_sources_from (seen : List String) : List Document → List (String × String)
  | [] => []
  | d :: ds =>
    let label := source_label d
    if label ∈ seen then build_sources_from seen ds
    else (d.page_content.take 300, label) :: build_sources_from (label :: seen) ds

def build_sources (docs : List Document) : List (String × String) :=
  build_sources_from [] docs

/-- Generation failures of the LLM chain (`chain.invoke` raising). -/
inductive GenError where
  | valueError (msg : String)
  | otherFailure (msg : String)
  deriving DecidableEq, Repr

/-- Retrieval failures (`retriever.get_relevant_documents` raising). -/
inductive RetrievalError where
  | backendFailure
  deriving DecidableEq, Repr

/-- The LLM chain of `get_rag_chain` as invoked by `invoke_rag`: a function of
the three prompt variables `context`, `question`, `conversation_history`,
which may fail. -/
def ChainFn : Type := String → String → String → Except GenError String

/-- `chain.invoke_rag(question, recent_messages)`:
retrieve (if a retriever is present), build context and deduplicated sources
inside `try`, degrade to `("", [])` on any retrieval failure or on an empty
retrieved list, then format the history and invoke the chain. -/
def invoke_rag (chainFn : ChainFn)
    (retriever : Option (String → Except RetrievalError (List Document)))
    (question : String) (recent_messages : List Message) :
    Except GenError (String × List (String × String)) :=
  let ctxSources : String × List (String × String) :=
    match retriever with
    | none => ("", [])
    | some retrieve =>
      match retrieve question with
      | .error _ => ("", [])
      | .ok docs =>
        if docs.isEmpty then ("", [])
        else (format_docs docs, build_sources docs)
  let conversation_history := format_conversation_history recent_messages
  match chainFn ctxSources.1 question conversation_history with
  | .error e => .error e
  | .ok answer => .ok (answer, ctxSources.2)

/-! ## `api/chat.py`: generation under the `RAG_TIMEOUT` budget

The endpoint runs `invoke_rag` in a worker thread and awaits it through
`asyncio.wait_for(..., timeout=settings.RAG_TIMEOUT)`.  Time is modelled
abstractly: the awaited computation carries a `duration` (how long the
underlying threadpool call takes before completing or raising), and
`asyncio.wait_for`, per its documented semantics, returns the computation's
outcome after `duration` when `duration ≤ budget`, and otherwise stops
waiting at exactly `budget` and raises `asyncio.TimeoutError` — regardless of
`duration` (the thread keeps running, the caller no longer waits). -/

structure TimedComp (α : Type) where
  duration : Nat
  outcome : Except GenError α

inductive AwaitError where
  | timeoutError
  | inner (e : GenError)
  deriving DecidableEq, Repr

/-- `asyncio.wait_for(run_in_threadpool(...), timeout=budget)`: the pair
(elapsed wall-clock time observed by the awaiting caller, result). -/
def wait_for {α : Type} (budget : Nat) (c : TimedComp α) : Nat × Except AwaitError α :=
  if c.duration ≤ budget then
    (c.duration,
      match c.outcome with
      | .ok v => .ok v
      | .error e => .error (.inner e))
  else (budget, .error .timeoutError)

/-- An HTTP error response raised by the endpoint (`HTTPException`). -/
structure HTTPError where
  status : Nat
  detail : String
  deriving DecidableEq, Repr

/-- The exception mapping of the `chat` endpoint around the RAG call:
`except asyncio.TimeoutError` → 504 `"Request timeout. Please try again."`;
any other exception escapes to the outer handlers, `except ValueError` → 400
with the error message, `except Exception` → 500 `"Chat operation failed"`. -/
def chat_generation {α : Type} (budget : Nat) (c : TimedComp α) :
    Nat × Except HTTPError α :=
  let r := wait_for budget c
  (r.1,
    match r.2 with
    | .ok v => .ok v
    | .error .timeoutError => .error ⟨504, "Request timeout. Please try again."⟩
    | .error (.inner (.valueError msg)) => .error ⟨400, msg⟩
    | .error (.inner (.otherFailure _)) => .error ⟨500, "Chat operation failed"⟩)

/-! ## Lazy singleton construction (`get_vectorstore` / `get_rag_chain`)

Both caches follow the same pattern on a module-level global with no lock:

```
global _cached; if _cached is not None: return _cached
_cached = construct(); return _cached
```

Sequential semantics of one full call, plus an interleaved two-thread
semantics in which the check and the construct-and-assign are separate atomic
steps (the construction itself — `Chroma(...)`, model loading — takes seconds
and releases the interpreter lock, so two first calls can both pass the
`None` check before either assigns).  Instances are numbered by construction
order; `constructions` counts how many times the expensive constructor ran. -/

structure CacheState where
  cached : Option Nat
  constructions : Nat
  deriving DecidableEq, Repr

/-- One complete, uninterleaved call of `get_vectorstore` (equally
`get_rag_chain`): return the cached instance if present, otherwise construct
a fresh instance, store it in the global and return it. -/
def get_vectorstore_call (g : CacheState) : CacheState × Nat :=
  match g.cached with
  | some v => (g, v)
  | none => (⟨some g.constructions, g.constructions + 1⟩, g.constructions)

/-- Program counter of one thread running the body of `get_vectorstore`. -/
inductive ThreadPC where
  /-- about to execute `if _cached is not None` -/
  | atCheck
  /-- passed the `None` check, about to run the constructor and assign -/
  | atConstruct
  /-- returned -/
  | finished (ret : Nat)
  deriving DecidableEq, Repr

structure RaceState where
  globalState : CacheState
  thread0 : ThreadPC
  thread1 : ThreadPC
  deriving DecidableEq, Repr

/-- One atomic step of a single thread against the shared global. -/
def stepThread (g : CacheState) : ThreadPC → CacheState × ThreadPC
  | .atCheck =>
    match g.cached with
    | some v => (g, .finished v)
    | none => (g, .atConstruct)
  | .atConstruct =>
    (⟨some g.constructions, g.constructions + 1⟩, .finished g.constructions)
  | .finished v => (g, .finished v)

/-- Run a schedule: `true` steps thread 0, `false` steps thread 1. -/
def runRace : List Bool → RaceState → RaceState
  | [], s => s
  | b :: rest, s =>
    if b then
      let r := stepThread s.globalState s.thread0
      runRace rest ⟨r.1, r.2, s.thread1⟩
    else
      let r := stepThread s.globalState s.thread1
      runRace rest ⟨r.1, s.thread0, r.2⟩

/-- Two threads both entering `get_vectorstore` first-use on a fresh process. -/
def raceStart : RaceState := ⟨⟨none, 0⟩, .atCheck, .atCheck⟩

/-- The racing schedule: both threads pass the `None` check before either
constructs, then both construct and assign. -/
def raceSchedule : List Bool := [true, false, true, false]

/-- The sequential schedule: thread 0 runs to completion, then thread 1. -/
def seqSchedule : List Bool := [true, true, false, false]

/-! ## Theorems -/

/-- C10: the configured embedding provider (`DummyEmbeddings`) is
text-independent: every query embeds to the same 384-dimensional all-zero
vector, `embed_documents` returns one 384-dimensional all-zero vector per
input text, and consequently the ranking produced by `search` does not depend
on the query text. -/
theorem c10_dummy_embeddings_text_independent :
    (∀ t1 t2 : String, embed_query t1 = embed_query t2) ∧
    (∀ t : String, embed_query t = List.replicate 384 (0 : ℚ)) ∧
    (∀ texts : List String,
      embed_documents texts = List.replicate texts.length (List.replicate 384 (0 : ℚ))) ∧
    (∀ st q1 q2 top_k, search st q1 top_k = search st q2 top_k) := by
  refine ⟨fun _ _ => rfl, fun _ => rfl, fun texts => ?_, fun _ _ _ _ => rfl⟩
  exact List.map_const' texts (List.replicate 384 (0 : ℚ))

/-- C6 (code bug): `clear_collection` runs `delete_collection()`, which
removes the Chroma collection itself; `search` through the still-cached
vector-store handle then fails with the invalid-collection error instead of
returning `[]`.  On an existing-but-empty collection, `search` does return
`[]` without raising. -/
theorem c6_reset_then_search_raises :
    search (clear_collection freshChromaState) "exam schedule" (some 4) =
      .error .invalidCollection ∧
    search freshChromaState "exam schedule" (some 4) = .ok [] := by
  constructor <;> rfl

/-- C3 (counterexample): first-use construction of the cached vector store is
guarded only by an unsynchronized check-then-set, so the interleaving in
which both threads pass the `None` check before either assigns performs two
constructions — not the exactly-one the claim requires. -/
theorem c3_singleton_race_counterexample :
    (runRace raceSchedule raceStart).globalState.constructions = 2 ∧
    (runRace raceSchedule raceStart).globalState.constructions ≠ 1 := by
  decide

/-- C3 (amended): the caches of `get_vectorstore`/`get_rag_chain` are plain
check-then-set module globals with no lock: a call finding the cache set
returns the cached instance without constructing, a first call on an empty
cache constructs exactly once and stores the instance, and an immediately
following call returns that same instance with no further construction — but
two concurrent first calls admit an interleaving with two constructions,
while a sequential two-call schedule performs exactly one. -/
theorem c3_check_then_set_cache :
    (∀ g v, g.cached = some v → get_vectorstore_call g = (g, v)) ∧
    (∀ g, g.cached = none →
      (get_vectorstore_call g).1.constructions = g.constructions + 1 ∧
      (get_vectorstore_call g).1.cached = some (get_vectorstore_call g).2) ∧
    (∀ g, get_vectorstore_call (get_vectorstore_call g).1 =
      ((get_vectorstore_call g).1, (get_vectorstore_call g).2)) ∧
    (runRace seqSchedule raceStart).globalState.constructions = 1 ∧
    (runRace raceSchedule raceStart).globalState.constructions = 2 := by
  refine ⟨fun g v h => ?_, fun g h => ?_, fun g => ?_, by decide, by decide⟩
  · simp [get_vectorstore_call, h]
  · simp [get_vectorstore_call, h]
  · rcases g with ⟨c, n⟩
    cases c <;> simp [get_vectorstore_call]

/-- C3 (witness for the amended theorem): concrete instantiations — a call on
a warm cache returns the cached instance 7 without constructing, and a first
call on a cold cache bumps the construction count from 0 to 1. -/
theorem c3_check_then_set_cache_witness :
    get_vectorstore_call ⟨some 7, 1⟩ = (⟨some 7, 1⟩, 7) ∧
    (get_vectorstore_call ⟨none, 0⟩).1.constructions = 0 + 1 := by
  exact ⟨c3_check_then_set_cache.1 ⟨some 7, 1⟩ 7 rfl,
         (c3_check_then_set_cache.2.1 ⟨none, 0⟩ rfl).1⟩

/-- C1: if retrieval raises inside `invoke_rag`, the exception is absorbed:
the result is exactly the chain invoked with an empty context (and the
formatted history), paired with an empty sources list — retrieval failure
degrades to an ungrounded answer and generation still runs. -/
theorem c1_retrieval_failure_degrades (chainFn : ChainFn)
    (retrieve : String → Except RetrievalError (List Document))
    (question : String) (msgs : List Message) (e : RetrievalError)
    (hfail : retrieve question = .error e) :
    invoke_rag chainFn (some retrieve) question msgs =
      (chainFn "" question (format_conversation_history msgs)).map
        (fun answer => (answer, [])) := by
  cases hc : chainFn "" question (format_conversation_history msgs) <;>
    simp [invoke_rag, hfail, hc, Except.map]

/-- C1 (witness): a retriever that always fails, a chain echoing its context:
the call returns the (empty-context) answer with no sources. -/
theorem c1_retrieval_failure_degrades_witness :
    invoke_rag (fun ctx _q _h => .ok ctx)
      (some (fun _ => .error .backendFailure)) "Quelle est la date limite" [] =
      .ok ("", []) := by
  rw [c1_retrieval_failure_degrades (fun ctx _q _h => .ok ctx)
    (fun _ => .error .backendFailure) "Quelle est la date limite" [] .backendFailure rfl]
  rfl

/-- C2: when the awaited RAG call does not complete within `RAG_TIMEOUT`, the
endpoint stops waiting at exactly the budget — independent of how long the
underlying call eventually takes — and raises the 504 timeout response; and
no call completing within the budget can ever produce a 504 response, so the
timeout error is distinguishable from every other generation failure (which
map to 400/500). -/
theorem c2_generation_timeout {α : Type} (budget : Nat) (c : TimedComp α)
    (hlate : budget < c.duration) :
    chat_generation budget c =
      (budget, .error ⟨504, "Request timeout. Please try again."⟩) ∧
    ∀ (c2 : TimedComp α) (d : String), c2.duration ≤ budget →
      (chat_generation budget c2).2 ≠ .error ⟨504, d⟩ := by
  constructor
  · simp [chat_generation, wait_for, Nat.not_le.mpr hlate]
  · intro c2 d hle
    rcases c2 with ⟨dur, out⟩
    cases out with
    | ok v => simp [chat_generation, wait_for, hle]
    | error ge =>
      cases ge <;> simp [chat_generation, wait_for, hle]

/-- C2 (witness): with a 1-second budget and a call taking 5 seconds, the
endpoint responds 504 after 1 second; a failing call completing in time is
never mapped to 504. -/
theorem c2_generation_timeout_witness :
    chat_generation 1 (⟨5, .ok "tardif"⟩ : TimedComp String) =
      (1, .error ⟨504, "Request timeout. Please try again."⟩) ∧
    (chat_generation 1 (⟨0, .error (.otherFailure "panne")⟩ : TimedComp String)).2 ≠
      .error ⟨504, "Request timeout. Please try again."⟩ := by
  have h := c2_generation_timeout 1 (⟨5, .ok "tardif"⟩ : TimedComp String) (by decide)
  exact ⟨h.1, h.2 ⟨0, .error (.otherFailure "panne")⟩ _ (by decide)⟩

/-- A 7-message conversation history; its `drop 1` is exactly its last 6
messages. -/
def c5ExampleHistory : List Message :=
  [⟨.user, "m1"⟩, ⟨.assistant, "m2"⟩, ⟨.user, "m3"⟩, ⟨.assistant, "m4"⟩,
   ⟨.user, "m5"⟩, ⟨.assistant, "m6"⟩, ⟨.user, "m7"⟩]

set_option maxRecDepth 8192 in
/-- C5 (counterexample): `_format_conversation_history` has no 6-message cap:
on a 7-message history its output differs from the output on the last 6
messages alone (so the block depends on the 7th-to-last message), and the
block holds one line per message plus the header — 8 lines, not at most 7. -/
theorem c5_history_no_six_message_cap :
    format_conversation_history c5ExampleHistory ≠
      format_conversation_history (c5ExampleHistory.drop 1) ∧
    (history_lines c5ExampleHistory).length = 8 := by
  decide

set_option maxRecDepth 8192 in
/-- C5 (amended): the formatter renders every message of the list it is
given — a header line plus exactly one role-labelled line per message, each
with the content truncated to 200 characters (line length at most 211 =
9 + 2 + 200) — and an empty history formats to the empty string; the
at-most-6 bound is enforced by the caller (`get_recent_messages(limit=6)`),
not by the formatter. -/
theorem c5_history_formatting :
    format_conversation_history [] = "" ∧
    (∀ msgs : List Message, (history_lines msgs).length = msgs.length + 1) ∧
    (∀ msgs : List Message, ∀ m ∈ msgs, renderMessage m ∈ history_lines msgs) ∧
    (∀ m : Message, (renderMessage m).length ≤ 211) := by
  refine ⟨rfl, fun msgs => by simp [history_lines], fun msgs m hm => ?_, fun m => ?_⟩
  · exact List.mem_cons_of_mem _ (List.mem_map_of_mem renderMessage hm)
  · have h1 : (if m.role = .user then "Étudiant" else "Assistant").length ≤ 9 := by
      split <;> decide
    have h2 : (m.content.take 200).length ≤ 200 := by
      rw [String.take_eq]
      exact List.length_take_le 200 m.content.data
    have h3 : (": " : String).length = 2 := rfl
    simp only [renderMessage, String.length_append]
    omega

/-- C5 (witness for the amended theorem): a single-message history — the empty
case, the line count, the rendering of the one message, and its length
bound. -/
theorem c5_history_formatting_witness :
    format_conversation_history [] = "" ∧
    (history_lines [⟨.user, "bonjour"⟩]).length = ([⟨.user, "bonjour"⟩] : List Message).length + 1 ∧
    renderMessage ⟨.user, "bonjour"⟩ ∈ history_lines [⟨.user, "bonjour"⟩] ∧
    (renderMessage ⟨.user, "bonjour"⟩).length ≤ 211 := by
  exact ⟨c5_history_formatting.1,
         c5_history_formatting.2.1 _,
         c5_history_formatting.2.2.1 [⟨.user, "bonjour"⟩] _ (by decide),
         c5_history_formatting.2.2.2 _⟩

/-- C8: for every path whose (lower-cased) extension is not one of the five
supported formats, `get_loader_for_path` finds no loader, `load_document`
fails with the unsupported-format error producing no documents, and a
single-file ingest propagates that error. -/
theorem c8_unsupported_extension (parse : Parser) (p : PathM)
    (hun : str_lower p.suffix ∉ supportedSuffixes) :
    get_loader_for_path p = none ∧
    load_document parse p = .error (.unsupportedFormat p.suffix) ∧
    ∀ splitFn st, ingest_file parse splitFn st p =
      .error (.load (.unsupportedFormat p.suffix)) := by
  simp only [supportedSuffixes, List.mem_cons, List.not_mem_nil, or_false, not_or] at hun
  obtain ⟨h1, h2, h3, h4, h5⟩ := hun
  have hloader : get_loader_for_path p = none := by
    simp [get_loader_for_path, h1, h2, h3, h4, h5]
  refine ⟨hloader, ?_, ?_⟩
  · simp [load_document, hloader]
  · intro splitFn st
    simp [ingest_file, load_document, hloader]

/-- C8 (witness): a `.exe` file is rejected with the unsupported-format
error by both the loader and the single-file ingest. -/
theorem c8_unsupported_extension_witness :
    get_loader_for_path ⟨"data/virus.exe", "virus.exe", ".exe"⟩ = none ∧
    load_document (fun _ _ => .ok []) ⟨"data/virus.exe", "virus.exe", ".exe"⟩ =
      .error (.unsupportedFormat ".exe") ∧
    ingest_file (fun _ _ => .ok []) id freshChromaState
      ⟨"data/virus.exe", "virus.exe", ".exe"⟩ =
      .error (.load (.unsupportedFormat ".exe")) := by
  have h := c8_unsupported_extension (fun _ _ => .ok [])
    ⟨"data/virus.exe", "virus.exe", ".exe"⟩ (by decide)
  exact ⟨h.1, h.2.1, h.2.2 id freshChromaState⟩

/-- Specification-side definition (the spec's "deduplicate by label
preserving first-seen (i.e., retrieval rank) order"), to be compared with the
code's source-building loop. -/
def dedup_first_seen_from (seen : List String) : List String → List String
  | [] => []
  | x :: xs =>
    if x ∈ seen then dedup_first_seen_from seen xs
    else x :: dedup_first_seen_from (x :: seen) xs

def dedup_first_seen (labels : List String) : List String :=
  dedup_first_seen_from [] labels

/-- The labels of the built sources are exactly the first-seen deduplication
of the labels of the retrieved documents, for any starting `seen` set. -/
theorem build_sources_from_map_snd (docs : List Document) :
    ∀ seen, (build_sources_from seen docs).map Prod.snd =
      dedup_first_seen_from seen (docs.map source_label) := by
  induction docs with
  | nil => intro seen; rfl
  | cons d ds ih =>
    intro seen
    simp only [build_sources_from, dedup_first_seen_from, List.map_cons]
    by_cases h : source_label d ∈ seen
    · simp [h, ih]
    · simp [h, ih]

/-- Every built source pairs a label with the 300-character preview of a
retrieved document carrying that label. -/
theorem build_sources_from_mem (docs : List Document) :
    ∀ seen pr, pr ∈ build_sources_from seen docs →
      ∃ d ∈ docs, pr = (d.page_content.take 300, source_label d) := by
  induction docs with
  | nil => intro seen pr h; cases h
  | cons d ds ih =>
    intro seen pr h
    simp only [build_sources_from] at h
    by_cases hd : source_label d ∈ seen
    · rw [if_pos hd] at h
      obtain ⟨d2, hd2, hpr⟩ := ih seen pr h
      exact ⟨d2, List.mem_cons_of_mem _ hd2, hpr⟩
    · rw [if_neg hd] at h
      rcases List.mem_cons.mp h with h1 | h2
      · exact ⟨d, List.mem_cons_self _ _, h1⟩
      · obtain ⟨d2, hd2, hpr⟩ := ih _ pr h2
        exact ⟨d2, List.mem_cons_of_mem _ hd2, hpr⟩

/-- Retrieval-rank example of the claim: chunks from files [A, B, A, C]. -/
def c4RankExample : List Document :=
  [⟨"chunk from A, rank 1", some "data/A.txt", some "A.txt", none⟩,
   ⟨"chunk from B, rank 2", some "data/B.txt", some "B.txt", none⟩,
   ⟨"chunk from A, rank 3", some "data/A.txt", some "A.txt", none⟩,
   ⟨"chunk from C, rank 4", some "data/C.txt", some "C.txt", none⟩]

/-- C4: the sources returned by `invoke_rag` for a retrieved list are `[]`
when the list is empty and otherwise contain exactly one entry per distinct
label in first-seen retrieval-rank order (the code's dedup loop equals the
spec's first-seen label deduplication), each entry pairing a label with the
300-character-bounded preview of a chunk carrying that label; chunks from
files in rank order [A, B, A, C] yield source labels exactly [A, B, C]. -/
theorem c4_source_dedup_and_order :
    (∀ (chainFn : ChainFn) (retrieve : String → Except RetrievalError (List Document))
       (q : String) (msgs : List Message) (docs : List Document)
       (ans : String) (sources : List (String × String)),
      retrieve q = .ok docs →
      invoke_rag chainFn (some retrieve) q msgs = .ok (ans, sources) →
      sources = if docs.isEmpty then [] else build_sources docs) ∧
    (∀ docs : List Document,
      (build_sources docs).map Prod.snd = dedup_first_seen (docs.map source_label)) ∧
    (∀ docs : List Document, ∀ pr ∈ build_sources docs,
      (∃ d ∈ docs, pr = (d.page_content.take 300, source_label d)) ∧
      pr.1.length ≤ 300) ∧
    (build_sources c4RankExample).map Prod.snd = ["A.txt", "B.txt", "C.txt"] := by
  refine ⟨?_, ?_, ?_, by decide⟩
  · intro chainFn retrieve q msgs docs ans sources hret hinv
    by_cases hde : docs.isEmpty <;>
      cases hc : chainFn (if docs.isEmpty then "" else format_docs docs) q
          (format_conversation_history msgs) <;>
      simp [invoke_rag, hret, hde, hc] at hinv ⊢ <;>
      simp_all
  · intro docs
    exact build_sources_from_map_snd docs []
  · intro docs pr hpr
    obtain ⟨d, hd, hpr2⟩ := build_sources_from_mem docs [] pr hpr
    refine ⟨⟨d, hd, hpr2⟩, ?_⟩
    rw [hpr2]
    rw [String.take_eq]
    exact List.length_take_le 300 d.page_content.data

/-- C4 (witness): a retriever returning the [A, B, A, C] example and a chain
that answers; the sources component of the successful call is the
deduplicated source list. -/
theorem c4_source_dedup_and_order_witness :
    build_sources c4RankExample =
      (if c4RankExample.isEmpty then [] else build_sources c4RankExample) :=
  c4_source_dedup_and_order.1 (fun _ _ _ => .ok "ok")
    (fun _ => .ok c4RankExample) "q" [] c4RankExample "ok"
    (build_sources c4RankExample) rfl rfl

instance {ε α : Type} [DecidableEq ε] [DecidableEq α] : DecidableEq (Except ε α) :=
  fun a b =>
    match a, b with
    | .error e1, .error e2 =>
      if h : e1 = e2 then isTrue (by rw [h])
      else isFalse (fun hc => h (Except.error.inj hc))
    | .error _, .ok _ => isFalse (fun hc => Except.noConfusion hc)
    | .ok _, .error _ => isFalse (fun hc => Except.noConfusion hc)
    | .ok v1, .ok v2 =>
      if h : v1 = v2 then isTrue (by rw [h])
      else isFalse (fun hc => h (Except.ok.inj hc))

instance : IsTotal (Document × ℚ) (fun a b => a.2 ≤ b.2) :=
  ⟨fun a b => le_total a.2 b.2⟩

instance : IsTrans (Document × ℚ) (fun a b => a.2 ≤ b.2) :=
  ⟨fun _ _ _ h1 h2 => le_trans h1 h2⟩

/-- A document stored in the one-entry example store. -/
def c9Doc : Document :=
  ⟨"un extrait", some "data/a.txt", some "a.txt", none⟩

/-- A store holding one entry (stored with the all-zero dummy embedding). -/
def c9Store : ChromaState :=
  ⟨true, [⟨c9Doc, List.replicate 384 0⟩]⟩

/-- The value `search(q, 1)` computes on `c9Store`: the single stored
document with its distance from the (all-zero) query embedding. -/
def c9Result : List (Document × ℚ) :=
  [(c9Doc, l2sq (embed_query "exam schedule") (List.replicate 384 0))]

/-- The number of results a `search` call returns (0 on error). -/
def searchResultLength (st : ChromaState) (q : String) (top_k : Option Nat) : Nat :=
  match search st q top_k with
  | .ok l => l.length
  | .error _ => 0

/-- C9 (counterexample): `search(q, 0)` does not return at most 0 results —
`top_k or 4` treats `0` as falsy, substitutes the default 4, and on a
one-entry store the call returns 1 result. -/
theorem c9_topk_zero_counterexample :
    ¬ (searchResultLength c9Store "exam schedule" (some 0) ≤ 0) := by
  decide

/-- C9 (amended): every successful `search(q, k)` returns results ordered by
non-decreasing distance score (best first, Chroma's ascending-distance
ranking), and at most `kOrDefault k` of them — hence at most `k` whenever
`k ≥ 1`; for `k = 0` (or `k = None`) the Python `top_k or 4` falls back to
the default 4, so up to 4 results may be returned. -/
theorem c9_topk_bound_and_ordering (st : ChromaState) (q : String)
    (top_k : Option Nat) (l : List (Document × ℚ))
    (hok : search st q top_k = .ok l) :
    List.Pairwise (fun a b => a.2 ≤ b.2) l ∧
    l.length ≤ kOrDefault top_k ∧
    ∀ n, top_k = some n → 1 ≤ n → l.length ≤ n := by
  unfold search similarity_search_with_score at hok
  by_cases hex : st.collectionExists
  · rw [if_pos hex] at hok
    injection hok with hok
    subst hok
    refine ⟨?_, ?_, ?_⟩
    · exact List.Pairwise.sublist (List.take_sublist _ _)
        (List.sorted_insertionSort (fun (a b : Document × ℚ) => a.2 ≤ b.2) _)
    · exact List.length_take_le _ _
    · intro n hn h1
      have : kOrDefault top_k = n := by
        subst hn
        simp [kOrDefault]
        omega
      rw [← this]
      exact List.length_take_le _ _
  · rw [if_neg hex] at hok
    cases hok

/-- C9 (witness for the amended theorem): on the one-entry store with
`k = 1`, the single returned result is sorted, within the default bound and
within the requested bound. -/
theorem c9_topk_bound_and_ordering_witness :
    List.Pairwise (fun (a b : Document × ℚ) => a.2 ≤ b.2) c9Result ∧
    c9Result.length ≤ kOrDefault (some 1) ∧
    c9Result.length ≤ 1 := by
  have h := c9_topk_bound_and_ordering c9Store "exam schedule" (some 1)
    c9Result rfl
  exact ⟨h.1, h.2.1, h.2.2 1 rfl (by decide)⟩

/-- The documents a single file contributes inside the directory loop
(`[]` when its load fails). -/
def loadOkDocs (parse : Parser) (p : PathM) : List Document :=
  match load_document parse p with
  | .ok ds => ds
  | .error _ => []

/-- The files of the directory listing that have a supported suffix and load
without error. -/
def successfully_loaded (parse : Parser) (files : List PathM) : List PathM :=
  files.filter
    (fun p => decide (str_lower p.suffix ∈ supportedSuffixes) &&
      (load_document parse p).isOk)

/-- Every document produced by a successful `load_document` carries the
file's path as its `source` metadata. -/
theorem load_document_source (parse : Parser) (p : PathM) (docs : List Document)
    (h : load_document parse p = .ok docs) :
    ∀ d ∈ docs, d.source = some p.full := by
  unfold load_document at h
  split at h
  · cases h
  · split at h
    · cases h
    · injection h with h
      subst h
      intro d hd
      obtain ⟨d0, _, rfl⟩ := List.mem_map.mp hd
      rfl

/-- Every document the directory loop collects comes from some listed file
and carries that file's path as `source`. -/
theorem load_dir_source (parse : Parser) :
    ∀ files : List PathM, ∀ d ∈ load_documents_from_directory parse files,
      ∃ p ∈ files, d.source = some p.full := by
  intro files
  induction files with
  | nil => intro d hd; cases hd
  | cons p rest ih =>
    intro d hd
    simp only [load_documents_from_directory, List.mem_append] at hd
    rcases hd with hd | hd
    · by_cases hs : str_lower p.suffix ∈ supportedSuffixes
      · rw [if_pos hs] at hd
        cases hl : load_document parse p with
        | error e => rw [hl] at hd; cases hd
        | ok ds =>
          rw [hl] at hd
          exact ⟨p, List.mem_cons_self _ _, load_document_source parse p ds hl d hd⟩
      · rw [if_neg hs] at hd; cases hd
    · obtain ⟨q, hq, hsrc⟩ := ih d hd
      exact ⟨q, List.mem_cons_of_mem _ hq, hsrc⟩

/-- Deduplicating a block of equal labels followed by a list not containing
that label keeps exactly one copy of the label in front. -/
theorem dedup_const_append (a : String) :
    ∀ (xs l : List String), xs ≠ [] → (∀ x ∈ xs, x = a) → a ∉ l →
      (xs ++ l).dedup = a :: l.dedup := by
  intro xs
  induction xs with
  | nil => intro l h; exact absurd rfl h
  | cons x xs ih =>
    intro l _ hconst hnot
    have hx : x = a := hconst x (List.mem_cons_self _ _)
    subst hx
    by_cases hxs : xs = []
    · subst hxs
      simpa using List.dedup_cons_of_not_mem hnot
    · have hxmem : x ∈ xs := by
        obtain ⟨z, hz⟩ := List.exists_mem_of_ne_nil xs hxs
        have hzx : z = x := hconst z (List.mem_cons_of_mem _ hz)
        rw [← hzx]
        exact hz
      have hmem : x ∈ xs ++ l := List.mem_append_left _ hxmem
      rw [List.cons_append, List.dedup_cons_of_mem hmem]
      exact ih l hxs (fun z hz => hconst z (List.mem_cons_of_mem _ hz)) hnot

/-- The deduplicated source labels of a directory load are exactly the paths
of the successfully loaded files in listing order (distinct listed paths,
each successful file contributing at least one document). -/
theorem load_dir_sources_dedup (parse : Parser) :
    ∀ files : List PathM,
      (files.map (·.full)).Nodup →
      (∀ p ∈ successfully_loaded parse files, loadOkDocs parse p ≠ []) →
      ((load_documents_from_directory parse files).map
        (fun d => d.source.getD "")).dedup =
        (successfully_loaded parse files).map (·.full) := by
  intro files
  induction files with
  | nil => intro _ _; rfl
  | cons p rest ih =>
    intro hnd hne
    have hnd2 : (rest.map (·.full)).Nodup := (List.nodup_cons.mp hnd).2
    have hp_notin : p.full ∉ rest.map (·.full) := (List.nodup_cons.mp hnd).1
    by_cases hs : str_lower p.suffix ∈ supportedSuffixes
    · cases hl : load_document parse p with
      | error e =>
        have hfilter : successfully_loaded parse (p :: rest) =
            successfully_loaded parse rest := by
          simp [successfully_loaded, List.filter_cons, hl, Except.isOk, Except.toBool]
        rw [hfilter]
        have hload : load_documents_from_directory parse (p :: rest) =
            load_documents_from_directory parse rest := by
          simp [load_documents_from_directory, hs, hl]
        rw [hload]
        exact ih hnd2 (by rw [← hfilter]; exact hne)
      | ok ds =>
        have hpmem : p ∈ successfully_loaded parse (p :: rest) := by
          simp [successfully_loaded, List.filter_cons, hs, hl, Except.isOk, Except.toBool]
        have hfilter : successfully_loaded parse (p :: rest) =
            p :: successfully_loaded parse rest := by
          simp [successfully_loaded, List.filter_cons, hs, hl, Except.isOk, Except.toBool]
        have hdsne : ds ≠ [] := by
          have := hne p hpmem
          simpa [loadOkDocs, hl] using this
        have hload : load_documents_from_directory parse (p :: rest) =
            ds ++ load_documents_from_directory parse rest := by
          simp [load_documents_from_directory, hs, hl]
        rw [hload, hfilter, List.map_append]
        have hconst : ∀ x ∈ ds.map (fun d => d.source.getD ""), x = p.full := by
          intro x hx
          obtain ⟨d, hd, rfl⟩ := List.mem_map.mp hx
          rw [load_document_source parse p ds hl d hd]
          rfl
        have hxsne : ds.map (fun d => d.source.getD "") ≠ [] := by
          simpa using hdsne
        have hnot : p.full ∉ (load_documents_from_directory parse rest).map
            (fun d => d.source.getD "") := by
          intro hmem
          obtain ⟨d, hd, hsrc⟩ := List.mem_map.mp hmem
          obtain ⟨q, hq, hqsrc⟩ := load_dir_source parse rest d hd
          apply hp_notin
          rw [List.mem_map]
          refine ⟨q, hq, ?_⟩
          rw [hqsrc] at hsrc
          exact hsrc
        rw [dedup_const_append p.full _ _ hxsne hconst hnot, List.map_cons]
        have hrest : ∀ q ∈ successfully_loaded parse rest, loadOkDocs parse q ≠ [] := by
          intro q hq
          exact hne q (by rw [hfilter]; exact List.mem_cons_of_mem _ hq)
        rw [ih hnd2 hrest]
    · have hfilter : successfully_loaded parse (p :: rest) =
          successfully_loaded parse rest := by
        simp [successfully_loaded, List.filter_cons, hs]
      rw [hfilter]
      have hload : load_documents_from_directory parse (p :: rest) =
          load_documents_from_directory parse rest := by
        simp [load_documents_from_directory, hs]
      rw [hload]
      exact ih hnd2 (by rw [← hfilter]; exact hne)

/-- C7: directory ingestion isolates per-file failures: whatever the per-file
parser does, `ingest_directory` succeeds (never raises because of an
individual bad file — each load failure is caught inside the directory loop
and the scan continues), and the returned stats count only the successfully
loaded files — `files` is their number and `chunks` the number of chunks
split from their documents alone.  (Hypotheses: the collection exists, the
splitter yields no chunks on no documents, listed paths are distinct, and
each successfully loaded file yields at least one document.) -/
theorem c7_directory_ingest_skips_bad_files
    (parse : Parser) (splitFn : List Document → List Document)
    (st : ChromaState) (files : List PathM)
    (hex : st.collectionExists = true)
    (hsplit : splitFn [] = [])
    (hnodup : (files.map (·.full)).Nodup)
    (hne : ∀ p ∈ successfully_loaded parse files, loadOkDocs parse p ≠ []) :
    Except.map Prod.snd (ingest_directory parse splitFn st files) =
      .ok ⟨(successfully_loaded parse files).length,
           (splitFn (load_documents_from_directory parse files)).length⟩ := by
  have hdedup := load_dir_sources_dedup parse files hnodup hne
  by_cases hd : (load_documents_from_directory parse files).isEmpty
  · have hnil : load_documents_from_directory parse files = [] :=
      List.isEmpty_iff.mp hd
    have hsucc : successfully_loaded parse files = [] := by
      rw [hnil] at hdedup
      simp only [List.map_nil, List.dedup_nil] at hdedup
      exact List.map_eq_nil_iff.mp hdedup.symm
    simp [ingest_directory, hnil, hsucc, hsplit, Except.map]
  · have hd2 : (load_documents_from_directory parse files).isEmpty = false := by
      simpa using hd
    simp [ingest_directory, hd2, add_documents, hex, Except.map, hdedup]

/-- A parser for the witness directory: Markdown/text files parse to one
document, PDFs are corrupt and raise. -/
def c7Parse : Parser := fun kind _p =>
  match kind with
  | .textLoader => .ok [⟨"contenu du calendrier", none, none, none⟩]
  | .pdfLoader => .error "fichier corrompu"
  | .docxLoader => .ok [⟨"contenu docx", none, none, none⟩]

/-- A directory listing with one valid `.md` file and one corrupt `.pdf`. -/
def c7Files : List PathM :=
  [⟨"data/calendrier.md", "calendrier.md", ".md"⟩,
   ⟨"data/reglement.pdf", "reglement.pdf", ".pdf"⟩]

/-- C7 (witness): ingesting the two-file directory with the corrupt PDF
succeeds and reports `{files: 1, chunks: 1}` — the corrupt file is skipped,
not raised. -/
theorem c7_directory_ingest_skips_bad_files_witness :
    Except.map Prod.snd (ingest_directory c7Parse id freshChromaState c7Files) =
      .ok ⟨1, 1⟩ := by
  have h := c7_directory_ingest_skips_bad_files c7Parse id freshChromaState
    c7Files rfl rfl (by decide) (by decide)
  exact h.trans (by decide)

end DeepFluxUniHelp
